import Mathlib

/-!
Shallow embedding of the CCTP USDC bridge orchestrator from
`eth_defi/cctp/attestation.py`, `eth_defi/cctp/monitor.py` and
`eth_defi/cctp/bridge.py`.

Modelling choices, shared across the development:

* HTTP responses from Circle's Iris API are modelled as a status code plus the
  already-parsed `messages` array of the JSON body (`IrisResponse`).  A remote
  service is a function `Nat → IrisResponse` giving the response to the n-th
  HTTP request (0-based) issued by the loop under study.
* Wall-clock time is part of the state: `requests.get` is instantaneous and
  `time.sleep(poll_interval)` advances the clock by `poll_interval`.  Times are
  naturals (the Python floats in play are only compared and added).
* `while True:` loops are embedded fuel-indexed; `none` means the fuel ran out
  before the loop returned or raised.  Termination claims are settled by
  exhibiting sufficient fuel.
* Python byte strings are `List Nat` (each entry < 256 for well-formed hex).
  `bytes.fromhex` returns `Option`, `none` standing for the `ValueError` it
  raises on malformed hex.  (Python also skips ASCII spaces between pairs; no
  claim involves such inputs, so the model rejects them.)
-/

namespace CCTP

/-- Value of one hexadecimal digit, as in `bytes.fromhex`. -/
def hexDigitVal (c : Char) : Option Nat :=
  if '0' ≤ c ∧ c ≤ '9' then some (c.toNat - '0'.toNat)
  else if 'a' ≤ c ∧ c ≤ 'f' then some (c.toNat - 'a'.toNat + 10)
  else if 'A' ≤ c ∧ c ≤ 'F' then some (c.toNat - 'A'.toNat + 10)
  else none

/-- Decode a list of hex digits, two per byte; `none` models the `ValueError`
raised by `bytes.fromhex` on odd length or a non-hex character. -/
def bytesFromHexChars : List Char → Option (List Nat)
  | [] => some []
  | [_] => none
  | h :: l :: rest => do
      let hv ← hexDigitVal h
      let lv ← hexDigitVal l
      let tail ← bytesFromHexChars rest
      pure ((hv * 16 + lv) :: tail)

/-- Remove every (non-overlapping, left-to-right) occurrence of `"0x"`, as
`str.replace("0x", "")` does in Python. -/
def replaceHexPrefixChars : List Char → List Char
  | '0' :: 'x' :: rest => replaceHexPrefixChars rest
  | c :: rest => c :: replaceHexPrefixChars rest
  | [] => []

/-- Model of `bytes.fromhex(s.replace("0x", ""))`. -/
def bytesFromHex (s : String) : Option (List Nat) :=
  bytesFromHexChars (replaceHexPrefixChars s.data)

/-- Model of the tx-hash normalisation
`if not transaction_hash.startswith("0x"): transaction_hash = f"0x{transaction_hash}"`
(the `startswith("0x")` test is expressed on the character list). -/
def normalizeTxHash (h : String) : String :=
  match h.data with
  | '0' :: 'x' :: _ => h
  | _ => "0x" ++ h

/-- One entry of the `messages` array of an Iris API JSON response.  Fields
default to the values `dict.get` produces when the key is absent.
`destinationDomain` stands for `decodedMessage["destinationDomain"]` after the
`int(...)` conversion; `none` covers a missing or unparseable field. -/
structure IrisMessage where
  status : String := ""
  attestation : Option String := none
  message : String := ""
  eventNonce : Option String := none
  delayReason : Option String := none
  destinationDomain : Option Nat := none
  cctpVersion : Option Nat := none
deriving Repr, DecidableEq, Inhabited

/-- An HTTP response from the Iris API: status code plus parsed body. -/
structure IrisResponse where
  statusCode : Nat
  messages : List IrisMessage := []
deriving Repr, DecidableEq, Inhabited

/-- Truthiness test `attestation_hex and attestation_hex != "PENDING"` on the
optional attestation field (`None` and `""` are falsy in Python). -/
def attPresent : Option String → Bool
  | none => false
  | some h => h ≠ "" && h ≠ "PENDING"

/-- Range of status codes for which `response.raise_for_status()` raises
`requests.HTTPError` (client and server errors). -/
def raisesForStatus (code : Nat) : Bool :=
  400 ≤ code && code < 600

/-- Attestation data for a CCTP burn event, as in `attestation.CCTPAttestation`. -/
structure CCTPAttestation where
  message : List Nat
  attestation : List Nat
  status : String
deriving Repr, DecidableEq

/-- Outcome of one call to `fetch_attestation`: the value returned, or which
exception escaped.  `valueError` is a `bytes.fromhex` failure on the payload. -/
inductive FetchResult where
  | success (att : CCTPAttestation)
  | timeoutError (msg : String)
  | httpError (code : Nat)
  | valueError
deriving Repr, DecidableEq

/-- Whether a `FetchResult` is the `TimeoutError` exception. -/
def FetchResult.isTimeout : FetchResult → Bool
  | .timeoutError _ => true
  | _ => false

/-- Mutable state of the `fetch_attestation` loop: the `attempt` counter, the
wall clock (`elapsed` seconds since `start_time`), the number of HTTP requests
issued so far, and the list of `(phase, attempt)` pairs passed to the
`on_phase_change` callback, oldest first. -/
structure FetchState where
  attempt : Nat := 0
  elapsed : Nat := 0
  requests : Nat := 0
  trace : List (String × Nat) := []
deriving Repr, DecidableEq

/-- Model of the closure `_notify`: record one `on_phase_change(phase, attempt)`
invocation with the current attempt counter. -/
def fetchNotify (s : FetchState) (phase : String) : FetchState :=
  { s with trace := s.trace ++ [(phase, s.attempt)] }

/-- The message of the `TimeoutError` raised by `fetch_attestation`. -/
def fetchTimeoutMessage (timeoutBudget : Nat) (txHash domainName : String) : String :=
  "CCTP attestation not ready after " ++ toString timeoutBudget ++ "s for tx " ++
    txHash ++ " on " ++ domainName

/-- Body of the `while True:` loop of `fetch_attestation`, fuel-indexed.
Mirrors `attestation.py` lines 160-223: timeout check at the top of each
iteration, `attempt += 1`, one HTTP request, the 404 retry branch,
`raise_for_status`, then inspection of the first message. -/
def fetchGo (service : Nat → IrisResponse) (timeoutBudget pollInterval : Nat)
    (txHash domainName : String) :
    Nat → FetchState → Option (FetchResult × FetchState)
  | 0, _ => none
  | fuel + 1, s =>
    if timeoutBudget ≤ s.elapsed then
      some (.timeoutError (fetchTimeoutMessage timeoutBudget txHash domainName), s)
    else
      let s1 : FetchState := { s with attempt := s.attempt + 1 }
      let resp := service s1.requests
      let s2 : FetchState := { s1 with requests := s1.requests + 1 }
      if resp.statusCode = 404 then
        let s3 := fetchNotify s2 "waiting_for_indexing"
        fetchGo service timeoutBudget pollInterval txHash domainName fuel
          { s3 with elapsed := s3.elapsed + pollInterval }
      else if raisesForStatus resp.statusCode then
        some (.httpError resp.statusCode, s2)
      else
        match resp.messages with
        | [] =>
          fetchGo service timeoutBudget pollInterval txHash domainName fuel
            { s2 with elapsed := s2.elapsed + pollInterval }
        | msg :: _ =>
          if msg.status = "complete" ∧ attPresent msg.attestation then
            let s3 := fetchNotify s2 "complete"
            match bytesFromHex msg.message, bytesFromHex (msg.attestation.getD "") with
            | some mb, some ab => some (.success ⟨mb, ab, msg.status⟩, s3)
            | _, _ => some (.valueError, s3)
          else
            let s3 := fetchNotify s2 msg.status
            fetchGo service timeoutBudget pollInterval txHash domainName fuel
              { s3 with elapsed := s3.elapsed + pollInterval }

/-- Fallback naming `CCTP_DOMAIN_NAMES.get(source_domain, f"domain-{source_domain}")`.
The dictionary itself lives in `eth_defi/cctp/constants.py`, which is not part
of the sources under study, so the name table is a parameter. -/
def domainNameFor (names : Nat → Option String) (sourceDomain : Nat) : String :=
  (names sourceDomain).getD ("domain-" ++ toString sourceDomain)

/-- Model of `fetch_attestation`: normalise the hash, fire the initial
`_notify("waiting_for_indexing")` (with `attempt` still 0), then run the poll
loop. -/
def fetch_attestation (service : Nat → IrisResponse)
    (names : Nat → Option String) (sourceDomain : Nat) (transactionHash : String)
    (timeoutBudget pollInterval fuel : Nat) :
    Option (FetchResult × FetchState) :=
  let txHash := normalizeTxHash transactionHash
  let domainName := domainNameFor names sourceDomain
  let s0 : FetchState := {}
  let s1 := fetchNotify s0 "waiting_for_indexing"
  fetchGo service timeoutBudget pollInterval txHash domainName fuel s1

/-! Model of `eth_defi/cctp/monitor.py`. -/

/-- Status of a CCTP transfer, as in `monitor.CCTPTransferStatus`. -/
structure CCTPTransferStatus where
  status : String
  source_domain : Nat
  dest_domain : Nat
  attestation : Option (List Nat)
  message : Option (List Nat)
  nonce : Option String
  delay_reason : Option String
  transaction_hash : String
  cctp_version : Option Nat := none
deriving Repr, DecidableEq, Inhabited

/-- Property `CCTPTransferStatus.is_complete`:
`self.status == "complete" and self.attestation is not None`. -/
def CCTPTransferStatus.is_complete (s : CCTPTransferStatus) : Bool :=
  s.status == "complete" && s.attestation.isSome

/-- Property `CCTPTransferStatus.is_pending`. -/
def CCTPTransferStatus.is_pending (s : CCTPTransferStatus) : Bool :=
  s.status == "pending_confirmations"

/-- Property `CCTPTransferStatus.is_delayed`. -/
def CCTPTransferStatus.is_delayed (s : CCTPTransferStatus) : Bool :=
  s.delay_reason.isSome

/-- Truthiness test `message_hex and message_hex != "0x"` from
`_parse_transfer_status`. -/
def messagePresent (m : String) : Bool :=
  m ≠ "" && m ≠ "0x"

/-- Model of `monitor._parse_transfer_status`.  Returns `none` when
`bytes.fromhex` would raise `ValueError` on a malformed hex payload.
`dest_domain` defaults to 0 when the decoded message is absent or unparseable,
matching the `try/except` around `int(decoded.get("destinationDomain", 0))`. -/
def _parse_transfer_status (msg : IrisMessage) (sourceDomain : Nat)
    (transactionHash : String) : Option CCTPTransferStatus := do
  let attestationBytes : Option (List Nat) ←
    if attPresent msg.attestation then (bytesFromHex (msg.attestation.getD "")).map some
    else some none
  let messageBytes : Option (List Nat) ←
    if messagePresent msg.message then (bytesFromHex msg.message).map some
    else some none
  pure
    { status := msg.status
      source_domain := sourceDomain
      dest_domain := msg.destinationDomain.getD 0
      attestation := attestationBytes
      message := messageBytes
      nonce := msg.eventNonce
      delay_reason := msg.delayReason
      transaction_hash := transactionHash
      cctp_version := msg.cctpVersion }

/-- Exceptions that can escape the monitor's status functions. -/
inductive MonitorError where
  | httpError (code : Nat)
  | valueError
  | timeoutError (msg : String)
deriving Repr, DecidableEq

/-- Model of `monitor.fetch_transfer_status` applied to one service response:
404 and an empty `messages` array yield `none` ("not yet indexed"); an HTTP
error status raises; otherwise the first message is parsed. -/
def fetch_transfer_status (resp : IrisResponse) (sourceDomain : Nat)
    (transactionHash : String) : Except MonitorError (Option CCTPTransferStatus) :=
  if resp.statusCode = 404 then .ok none
  else if raisesForStatus resp.statusCode then .error (.httpError resp.statusCode)
  else
    match resp.messages with
    | [] => .ok none
    | m :: _ =>
      match _parse_transfer_status m sourceDomain transactionHash with
      | some st => .ok (some st)
      | none => .error .valueError

/-- Loop state of `poll_transfer_status` (attempt counter, wall clock, number
of HTTP requests issued). -/
structure PollState where
  attempt : Nat := 0
  elapsed : Nat := 0
  requests : Nat := 0
deriving Repr, DecidableEq

/-- The message of the `TimeoutError` raised by `poll_transfer_status`. -/
def pollTimeoutMessage (timeoutBudget : Nat) (txHash : String) (sourceDomain : Nat) : String :=
  "CCTP transfer not complete after " ++ toString timeoutBudget ++ "s for tx " ++
    txHash ++ " on domain " ++ toString sourceDomain

/-- Body of the `while True:` loop of `poll_transfer_status`, fuel-indexed.
Mirrors `monitor.py` lines 226-255. -/
def pollGo (service : Nat → IrisResponse) (timeoutBudget pollInterval sourceDomain : Nat)
    (txHash : String) :
    Nat → PollState → Option (Except MonitorError CCTPTransferStatus × PollState)
  | 0, _ => none
  | fuel + 1, s =>
    if timeoutBudget ≤ s.elapsed then
      some (.error (.timeoutError (pollTimeoutMessage timeoutBudget txHash sourceDomain)), s)
    else
      let s1 : PollState := { s with attempt := s.attempt + 1 }
      let resp := service s1.requests
      let s2 : PollState := { s1 with requests := s1.requests + 1 }
      match fetch_transfer_status resp sourceDomain txHash with
      | .error e => some (.error e, s2)
      | .ok none =>
        pollGo service timeoutBudget pollInterval sourceDomain txHash fuel
          { s2 with elapsed := s2.elapsed + pollInterval }
      | .ok (some st) =>
        if st.is_complete then some (.ok st, s2)
        else
          pollGo service timeoutBudget pollInterval sourceDomain txHash fuel
            { s2 with elapsed := s2.elapsed + pollInterval }

/-- Model of `monitor.poll_transfer_status`: normalise the hash and run the
poll loop from the initial state. -/
def poll_transfer_status (service : Nat → IrisResponse)
    (sourceDomain : Nat) (transactionHash : String)
    (timeoutBudget pollInterval fuel : Nat) :
    Option (Except MonitorError CCTPTransferStatus × PollState) :=
  pollGo service timeoutBudget pollInterval sourceDomain
    (normalizeTxHash transactionHash) fuel {}

/-- Query parameters for looking up a CCTP transfer, as in
`monitor.CCTPTransferQuery`. -/
structure CCTPTransferQuery where
  source_domain : Nat
  transaction_hash : String
deriving Repr, DecidableEq, Inhabited

/-- Mechanism shared by both parallel entry points: `futures[future] = idx` and
later `results[idx] = future.result()` as `as_completed` yields futures.  The
fold builds the `results` dict in completion order; each task's result is given
by the oracle `f`.  Looking up a key never inserted models the `KeyError`
Python would raise (it cannot happen when `order` covers every submitted
index, which `as_completed` guarantees). -/
def collectCompleted {α : Type} (f : Nat → α) (order : List Nat) : Nat → Option α :=
  order.foldl (fun acc idx => fun j => if j = idx then some (f idx) else acc j) (fun _ => none)

/-- Model of `monitor.poll_transfers_parallel`.  Each submitted task `idx`
polls `transfers[idx]` to completion; its successful result is abstracted by
the oracle `resultOf` (the polling loop itself is modelled separately by
`poll_transfer_status`).  `order` is the order in which `as_completed` yields
the futures.  Returns the assembled result list (`none` for a `KeyError` on a
missing index) together with the list of task indices submitted to the pool,
in submission order. -/
def poll_transfers_parallel (transfers : List CCTPTransferQuery)
    (resultOf : CCTPTransferQuery → CCTPTransferStatus) (order : List Nat) :
    Option (List CCTPTransferStatus) × List Nat :=
  if transfers.isEmpty then (some [], [])
  else
    let n := transfers.length
    let submitted := List.range n
    let lookup := collectCompleted (fun i => resultOf (transfers.getD i default)) order
    ((List.range n).mapM lookup, submitted)

/-! Model of `eth_defi/cctp/bridge.py`. -/

/-- Phase of a single CCTP bridge transfer, as in `bridge.CCTPBridgePhase`
(declaration order matters: the progress bar advances by ordinal difference). -/
inductive CCTPBridgePhase where
  | burning
  | waiting_for_indexing
  | pending_confirmations
  | attested
  | receiving
  | complete
deriving Repr, DecidableEq, Inhabited

/-- The `.value` string of each `CCTPBridgePhase` enum member. -/
def CCTPBridgePhase.value : CCTPBridgePhase → String
  | .burning => "burning"
  | .waiting_for_indexing => "waiting_for_indexing"
  | .pending_confirmations => "pending_confirmations"
  | .attested => "attested"
  | .receiving => "receiving"
  | .complete => "complete"

/-- Ordinal of a phase in declaration order: `list(CCTPBridgePhase).index(phase)`. -/
def CCTPBridgePhase.ord : CCTPBridgePhase → Nat
  | .burning => 0
  | .waiting_for_indexing => 1
  | .pending_confirmations => 2
  | .attested => 3
  | .receiving => 4
  | .complete => 5

/-- Shared progress-tracking state of `bridge_usdc_cctp_parallel`: the
per-transfer phase array, the per-transfer poll counters, and the cumulative
number of steps the `tqdm` bar has been advanced by (`progress_bar.update`).
All of it is mutated only inside `_update_phase`, under one lock; the model
therefore treats one `_update_phase` call as one atomic state transition. -/
structure ProgressState where
  transfer_phases : List CCTPBridgePhase
  poll_counts : List Nat
  progressCount : Int := 0
deriving Repr, DecidableEq

/-- Model of the closure `_update_phase(idx, phase, attempt=0)` in
`bridge_usdc_cctp_parallel` (bridge.py lines 562-582).  Indexing a fixed-length
Python list is modelled with `getD`/`set` (callers only pass in-range indices;
`List.set` is the identity out of range). -/
def _update_phase (s : ProgressState) (idx : Nat) (phase : CCTPBridgePhase)
    (attempt : Nat) : ProgressState :=
  let s1 := if 0 < attempt then { s with poll_counts := s.poll_counts.set idx attempt } else s
  let oldPhase := s1.transfer_phases.getD idx .burning
  if phase.value = oldPhase.value then s1
  else
    let s2 := { s1 with transfer_phases := s1.transfer_phases.set idx phase }
    let advance : Int := max 0 ((phase.ord : Int) - (oldPhase.ord : Int))
    if 0 < advance then { s2 with progressCount := s2.progressCount + advance } else s2

/-- Destination configuration for parallel CCTP bridges, as in
`bridge.CCTPBridgeDestination` (`dest_web3` is reduced to its chain id, the
only thing the orchestration logic reads from it besides sending). -/
structure CCTPBridgeDestination where
  dest_chain_id : Nat
  dest_safe_address : String
  amount : Int
deriving Repr, DecidableEq, Inhabited

/-- Result of the burn phase, as in `bridge.CCTPBurnResult`. -/
structure CCTPBurnResult where
  burn_tx_hash : String
  amount : Int
  source_chain_id : Nat
  dest_chain_id : Nat
  dest_safe_address : String
deriving Repr, DecidableEq, Inhabited

/-- Result of a CCTP bridge operation, as in `bridge.CCTPBridgeResult`. -/
structure CCTPBridgeResult where
  burn_tx_hash : String
  receive_tx_hash : String
  amount : Int
  source_chain_id : Nat
  dest_chain_id : Nat
deriving Repr, DecidableEq, Inhabited

/-- An on-chain transaction submitted by the bridge. -/
inductive ChainAction where
  | approve (amount : Int)
  | depositForBurn (destChainId : Nat) (amount : Int) (mintRecipient : String)
  | receiveMessage (idx : Nat)
deriving Repr, DecidableEq

/-- Externally observable events of a bridge run: on-chain transactions and
`_update_phase` progress-callback invocations. -/
inductive BridgeEvent where
  | tx (a : ChainAction)
  | progressUpdate (idx : Nat) (phase : CCTPBridgePhase) (attempt : Nat)
deriving Repr, DecidableEq

/-- Whether a bridge event is an on-chain transaction. -/
def BridgeEvent.isTx : BridgeEvent → Bool
  | .tx _ => true
  | _ => false

/-- Model of `bridge.burn_usdc_cctp` for one destination.  The two
`_resolve_cctp_domain` assertions (bridge.py lines 258-259) run before any
transaction is prepared or sent; the chain-id → CCTP-domain table lives in
`eth_defi/cctp/transfer.py` (not among the sources), so it is the parameter
`domainOf`.  Modelled from the spec: `prepare_approve_for_burn` /
`prepare_deposit_for_burn` are also in the missing `transfer.py`; per the
spec's BridgeRequest invariant "amount > 0 ... or the whole request fails fast
before any on-chain action", the model rejects a non-positive amount before
submitting that destination's transactions.  On success the approval and the
burn are submitted (and, per `assert_transaction_success_with_explanation`,
assumed confirmed), and the burn hash is supplied by the `burnTxHash` oracle. -/
def burn_usdc_cctp (domainOf : Nat → Option Nat) (sourceChainId destChainId : Nat)
    (destSafeAddress : String) (amount : Int) (burnTxHash : String) :
    Except String (CCTPBurnResult × List ChainAction) :=
  if (domainOf sourceChainId).isNone then
    .error ("Source chain " ++ toString sourceChainId ++ " is not CCTP-enabled")
  else if (domainOf destChainId).isNone then
    .error ("Destination chain " ++ toString destChainId ++ " is not CCTP-enabled")
  else if amount ≤ 0 then
    .error "amount must be positive"
  else
    .ok ({ burn_tx_hash := burnTxHash, amount := amount, source_chain_id := sourceChainId,
           dest_chain_id := destChainId, dest_safe_address := destSafeAddress },
         [.approve amount, .depositForBurn destChainId amount destSafeAddress])

/-- Phase 1 of `bridge_usdc_cctp_parallel` (bridge.py lines 584-598): burns run
sequentially over the destinations; each is preceded by
`_update_phase(idx, burning)`.  A failed burn aborts the loop, leaving the
transactions of earlier destinations already submitted in the event trace. -/
def burnPhase (domainOf : Nat → Option Nat) (sourceChainId : Nat)
    (burnHashOf : Nat → String) :
    List CCTPBridgeDestination → Nat → Except String (List CCTPBurnResult) × List BridgeEvent
  | [], _ => (.ok [], [])
  | d :: rest, idx =>
    let ev := BridgeEvent.progressUpdate idx .burning 0
    match burn_usdc_cctp domainOf sourceChainId d.dest_chain_id d.dest_safe_address
        d.amount (burnHashOf idx) with
    | .error e => (.error e, [ev])
    | .ok (res, acts) =>
      let (r, evs) := burnPhase domainOf sourceChainId burnHashOf rest (idx + 1)
      (r.map (res :: ·), ev :: (acts.map .tx ++ evs))

/-- Model of `bridge.bridge_usdc_cctp_parallel` (production mode).  The inner
attestation polls are modelled separately by `fetch_attestation`; here each
destination's completed attestation is abstracted by the oracle
`attestationOf idx = (message, attestation)`, and each receive transaction's
hash by `recvHashOf`.  `attOrder` and `recvOrder` are the orders in which
`as_completed` yields the attestation and receive futures; both index
dictionaries are read back in input order (bridge.py lines 646-651, 703-705,
709-722).  Returns the result list (or the first propagated error) and the
event trace. -/
def bridge_usdc_cctp_parallel (domainOf : Nat → Option Nat) (sourceChainId : Nat)
    (destinations : List CCTPBridgeDestination)
    (burnHashOf recvHashOf : Nat → String)
    (attestationOf : Nat → List Nat × List Nat)
    (attOrder recvOrder : List Nat) :
    Except String (List CCTPBridgeResult) × List BridgeEvent :=
  if destinations.isEmpty then (.ok [], [])
  else
    let n := destinations.length
    let (burnRes, burnEvents) := burnPhase domainOf sourceChainId burnHashOf destinations 0
    match burnRes with
    | .error e => (.error e, burnEvents)
    | .ok burnResults =>
      let submitEvents := (List.range n).map
        (fun i => BridgeEvent.progressUpdate i .waiting_for_indexing 0)
      let attLookup := collectCompleted attestationOf attOrder
      match (List.range n).mapM attLookup with
      | none => (.error "KeyError", burnEvents ++ submitEvents)
      | some _attData =>
        let recvEvents := recvOrder.flatMap (fun i =>
          [BridgeEvent.progressUpdate i .receiving 0,
           BridgeEvent.tx (.receiveMessage i),
           BridgeEvent.progressUpdate i .complete 0])
        let recvLookup := collectCompleted recvHashOf recvOrder
        match (List.range n).mapM recvLookup with
        | none => (.error "KeyError", burnEvents ++ submitEvents ++ recvEvents)
        | some recvHashes =>
          let results := (burnResults.zip recvHashes).map (fun p =>
            { burn_tx_hash := p.1.burn_tx_hash
              receive_tx_hash := p.2
              amount := p.1.amount
              source_chain_id := p.1.source_chain_id
              dest_chain_id := p.1.dest_chain_id })
          (.ok results, burnEvents ++ submitEvents ++ recvEvents)

/-! Model of `attestation.is_attestation_complete`. -/

/-- Result of one HTTP request: either a transport-level
`requests.RequestException` or a response. -/
inductive HttpResult where
  | transportError
  | response (resp : IrisResponse)
deriving Repr, DecidableEq

/-- Python exceptions relevant to `is_attestation_complete`;
`requests.HTTPError` (from `raise_for_status`) is a subclass of
`requests.RequestException`, so one constructor covers both. -/
inductive PyError where
  | requestException
deriving Repr, DecidableEq

/-- The `try ... except requests.RequestException: ... return False` shape. -/
def pyTry {α : Type} (body : Except PyError α) (handler : PyError → Except PyError α) :
    Except PyError α :=
  match body with
  | .error e => handler e
  | .ok a => .ok a

/-- Model of `attestation.is_attestation_complete` (lines 250-265): the request
and `raise_for_status` run inside a `try` whose `except RequestException`
handler logs and falls through to `return False`; with a non-empty `messages`
array the result is
`msg.get("status") == "complete" and msg.get("attestation") not in {None, "PENDING"}`. -/
def is_attestation_complete (r : HttpResult) : Except PyError Bool :=
  pyTry
    (do
      let resp ← match r with
        | .transportError => Except.error PyError.requestException
        | .response resp => Except.ok resp
      if raisesForStatus resp.statusCode then
        Except.error PyError.requestException
      else
        match resp.messages with
        | [] => Except.ok false
        | m :: _ =>
          Except.ok (m.status == "complete" &&
            !(m.attestation == none) && !(m.attestation == some "PENDING")))
    (fun _ => Except.ok false)

/-- Whether a service response reports the status `"complete"` in its first
message (the only place `fetch_attestation` reads a status from). -/
def reportsCompleteStatus (r : IrisResponse) : Bool :=
  match r.messages with
  | [] => false
  | m :: _ => m.status == "complete"

/-- A response on which one `fetch_attestation` iteration retries rather than
returning: a 404, or a response that `raise_for_status` accepts and whose
`messages` array is empty or starts with a message that is not complete with a
present attestation. -/
def retryableResponse (r : IrisResponse) : Bool :=
  r.statusCode == 404 ||
    (!raisesForStatus r.statusCode &&
      match r.messages with
      | [] => true
      | m :: _ => !(m.status == "complete" && attPresent m.attestation))

/-- The on-chain transactions among a bridge run's events, in submission
order. -/
def chainTxs (events : List BridgeEvent) : List ChainAction :=
  events.filterMap (fun e => match e with | .tx a => some a | _ => none)

/-- Whether one `fetch_attestation` iteration that received this response
invokes the `on_phase_change` callback: it does on a 404 and on any
non-error response with a non-empty `messages` array, and does not on an
HTTP error (it raises first) or on an empty `messages` array. -/
def notifyingResponse (r : IrisResponse) : Bool :=
  r.statusCode == 404 || (!raisesForStatus r.statusCode && !r.messages.isEmpty)

/-- Feed a sequence of `(idx, phase, attempt)` updates to the progress
tracker, one `_update_phase` call per element, oldest first. -/
def applyUpdates (s : ProgressState) (updates : List (Nat × CCTPBridgePhase × Nat)) :
    ProgressState :=
  updates.foldl (fun st u => _update_phase st u.1 u.2.1 u.2.2) s

end CCTP

/-! Theorems. -/

namespace CCTP

/-- Helper: one `_update_phase` call never decreases the cumulative
advancement counter. -/
theorem update_phase_monotone (s : ProgressState) (idx : Nat)
    (phase : CCTPBridgePhase) (attempt : Nat) :
    s.progressCount ≤ (_update_phase s idx phase attempt).progressCount := by
  simp only [_update_phase]
  split_ifs <;> simp

end CCTP

namespace CCTP

/-- C4: against a service that answers 404 on the first query and a complete
message with attestation `"0xdead"` and message `"0xbeef"` on the second,
`fetch_attestation` for source domain 3 and tx hash `"0xabc"` returns
`CCTPAttestation(message=b'\xbe\xef', attestation=b'\xde\xad',
status="complete")` having issued exactly 2 HTTP requests (2 polls). -/
theorem c4_concrete_scenario :
    fetch_attestation
      (fun n => if n = 0 then { statusCode := 404 }
        else { statusCode := 200,
               messages := [{ status := "complete", attestation := some "0xdead",
                              message := "0xbeef" }] })
      (fun d => if d = 3 then some "arbitrum" else none) 3 "0xabc" 300 5 10 =
    some (.success { message := [190, 239], attestation := [222, 173], status := "complete" },
      { attempt := 2, elapsed := 5, requests := 2,
        trace := [("waiting_for_indexing", 0), ("waiting_for_indexing", 1), ("complete", 2)] }) := by
  rfl

/-- C10: on empty input both parallel entry points are no-ops: the empty
result list comes back with no task submitted, no on-chain transaction and no
progress-callback invocation. -/
theorem c10_empty_input_noop :
    (∀ (resultOf : CCTPTransferQuery → CCTPTransferStatus) (order : List Nat),
      poll_transfers_parallel [] resultOf order = (some [], [])) ∧
    (∀ (domainOf : Nat → Option Nat) (sourceChainId : Nat)
      (burnHashOf recvHashOf : Nat → String) (attestationOf : Nat → List Nat × List Nat)
      (attOrder recvOrder : List Nat),
      bridge_usdc_cctp_parallel domainOf sourceChainId [] burnHashOf recvHashOf
        attestationOf attOrder recvOrder = (.ok [], [])) :=
  ⟨fun _ _ => rfl, fun _ _ _ _ _ _ _ => rfl⟩

/-- Helper: a key that was inserted is found, no matter where in the
completion order it was inserted. -/
theorem collectCompleted_mem {α : Type} (f : Nat → α) (order : List Nat) (j : Nat)
    (hj : j ∈ order) : collectCompleted f order j = some (f j) := by
  suffices h : ∀ (acc : Nat → Option α),
      order.foldl (fun acc idx => fun j => if j = idx then some (f idx) else acc j) acc j =
        if j ∈ order then some (f j) else acc j by
    have := h (fun _ => none)
    simp [collectCompleted, hj] at this ⊢
    rw [this]
  clear hj
  induction order with
  | nil => intro acc; simp
  | cons i rest ih =>
    intro acc
    simp only [List.foldl_cons, List.mem_cons]
    rw [ih]
    by_cases hr : j ∈ rest
    · simp [hr]
    · by_cases hi : j = i
      · simp [hr, hi]
      · simp [hr, hi]

/-- Helper: `mapM` over the `Option` monad succeeds pointwise. -/
theorem mapM_all_some {α : Type} (g : Nat → Option α) (f : Nat → α) :
    ∀ (l : List Nat), (∀ i ∈ l, g i = some (f i)) → l.mapM g = some (l.map f) := by
  intro l
  induction l with
  | nil => intro _; rfl
  | cons a l ih =>
    intro h
    rw [List.mapM_cons]
    simp only [h a (List.mem_cons_self a l), ih (fun i hi => h i (List.mem_cons_of_mem a hi)),
      Option.bind_some, List.map_cons]
    rfl

/-- Helper: `poll_transfers_parallel` returns results in input order whatever
the completion order, provided every submitted index eventually completes. -/
theorem poll_parallel_input_order (transfers : List CCTPTransferQuery)
    (resultOf : CCTPTransferQuery → CCTPTransferStatus) (order : List Nat)
    (hcov : ∀ i, i < transfers.length → i ∈ order) :
    poll_transfers_parallel transfers resultOf order =
      (some (transfers.map resultOf), List.range transfers.length) := by
  rcases transfers with _ | ⟨q, qs⟩
  · rfl
  · simp only [poll_transfers_parallel, List.isEmpty_cons, Bool.false_eq_true, if_false]
    refine congrArg₂ Prod.mk ?_ rfl
    rw [mapM_all_some _ (fun i => resultOf ((q :: qs).getD i default))
      (List.range (q :: qs).length)
      (fun i hi => collectCompleted_mem _ order i (hcov i (List.mem_range.mp hi)))]
    congr 1
    have hrange : ∀ (l : List CCTPTransferQuery),
        (List.range l.length).map (fun i => resultOf (l.getD i default)) =
          l.map resultOf := by
      intro l
      induction l with
      | nil => rfl
      | cons x xs ihl =>
        simp only [List.length_cons, List.range_succ_eq_map, List.map_cons, List.map_map]
        refine congrArg₂ _ rfl ?_
        rw [← ihl]
        rfl
    exact hrange (q :: qs)

/-- Helper: with CCTP-enabled chains and positive amounts a burn step
succeeds, submitting exactly the approval and the burn for that destination. -/
theorem burn_usdc_cctp_ok (domainOf : Nat → Option Nat) (sourceChainId destChainId : Nat)
    (destSafeAddress : String) (amount : Int) (burnTxHash : String)
    (hsrc : (domainOf sourceChainId).isSome = true)
    (hdst : (domainOf destChainId).isSome = true) (hamt : 0 < amount) :
    burn_usdc_cctp domainOf sourceChainId destChainId destSafeAddress amount burnTxHash =
      .ok ({ burn_tx_hash := burnTxHash, amount := amount, source_chain_id := sourceChainId,
             dest_chain_id := destChainId, dest_safe_address := destSafeAddress },
           [.approve amount, .depositForBurn destChainId amount destSafeAddress]) := by
  have h1 : (domainOf sourceChainId).isNone = false := by
    rcases hs : domainOf sourceChainId with _ | v <;> simp [hs] at hsrc ⊢
  have h2 : (domainOf destChainId).isNone = false := by
    rcases hs : domainOf destChainId with _ | v <;> simp [hs] at hdst ⊢
  have h3 : ¬ amount ≤ 0 := by omega
  simp [burn_usdc_cctp, h1, h2, h3]

/-- Helper: the sequential burn loop over valid destinations yields one
`CCTPBurnResult` per destination, at the input position of that destination. -/
theorem burnPhase_all_valid (domainOf : Nat → Option Nat) (sourceChainId : Nat)
    (burnHashOf : Nat → String) (hsrc : (domainOf sourceChainId).isSome = true) :
    ∀ (dests : List CCTPBridgeDestination) (idx : Nat),
      (∀ d ∈ dests, (domainOf d.dest_chain_id).isSome = true ∧ 0 < d.amount) →
      ∃ l, (burnPhase domainOf sourceChainId burnHashOf dests idx).1 = .ok l ∧
        l.length = dests.length ∧
        ∀ i, i < dests.length →
          l.get? i = some
            { burn_tx_hash := burnHashOf (idx + i),
              amount := (dests.getD i default).amount,
              source_chain_id := sourceChainId,
              dest_chain_id := (dests.getD i default).dest_chain_id,
              dest_safe_address := (dests.getD i default).dest_safe_address } := by
  intro dests
  induction dests with
  | nil =>
    intro idx _
    exact ⟨[], rfl, rfl, fun i hi => by simp at hi⟩
  | cons d rest ih =>
    intro idx hvalid
    have hd := hvalid d (List.mem_cons_self d rest)
    obtain ⟨l', hl', hlen', hget'⟩ :=
      ih (idx + 1) (fun x hx => hvalid x (List.mem_cons_of_mem d hx))
    refine ⟨{ burn_tx_hash := burnHashOf idx, amount := d.amount,
              source_chain_id := sourceChainId, dest_chain_id := d.dest_chain_id,
              dest_safe_address := d.dest_safe_address } :: l', ?_, ?_, ?_⟩
    · simp only [burnPhase,
        burn_usdc_cctp_ok domainOf sourceChainId d.dest_chain_id d.dest_safe_address
          d.amount (burnHashOf idx) hsrc hd.1 hd.2]
      rcases hbp : burnPhase domainOf sourceChainId burnHashOf rest (idx + 1) with ⟨r, evs⟩
      rw [hbp] at hl'
      simp only at hl'
      simp [hl', Except.map]
    · simp [hlen']
    · intro i hi
      cases i with
      | zero => simp
      | succ i =>
        simp only [List.get?_cons_succ, List.getD_cons_succ]
        rw [hget' i (by simp only [List.length_cons] at hi; omega)]
        have harith : idx + 1 + i = idx + (i + 1) := by omega
        rw [harith]

/-- Helper: `bridge_usdc_cctp_parallel` returns results in input order — the
`i`-th result is built from the `i`-th destination, its burn hash and its
receive hash, for every pair of completion orders that cover all indices. -/
theorem bridge_parallel_input_order (domainOf : Nat → Option Nat) (sourceChainId : Nat)
    (destinations : List CCTPBridgeDestination)
    (burnHashOf recvHashOf : Nat → String) (attestationOf : Nat → List Nat × List Nat)
    (attOrder recvOrder : List Nat)
    (hsrc : (domainOf sourceChainId).isSome = true)
    (hvalid : ∀ d ∈ destinations, (domainOf d.dest_chain_id).isSome = true ∧ 0 < d.amount)
    (hatt : ∀ i, i < destinations.length → i ∈ attOrder)
    (hrecv : ∀ i, i < destinations.length → i ∈ recvOrder) :
    ∃ results,
      (bridge_usdc_cctp_parallel domainOf sourceChainId destinations burnHashOf recvHashOf
        attestationOf attOrder recvOrder).1 = .ok results ∧
      results.length = destinations.length ∧
      ∀ i, i < destinations.length →
        results.get? i = some
          { burn_tx_hash := burnHashOf i,
            receive_tx_hash := recvHashOf i,
            amount := (destinations.getD i default).amount,
            source_chain_id := sourceChainId,
            dest_chain_id := (destinations.getD i default).dest_chain_id } := by
  by_cases hemp : destinations.isEmpty
  · have hnil : destinations = [] := List.isEmpty_iff.mp hemp
    subst hnil
    exact ⟨[], rfl, rfl, fun i hi => by simp at hi⟩
  · obtain ⟨l, hl, hlen, hget⟩ :=
      burnPhase_all_valid domainOf sourceChainId burnHashOf hsrc destinations 0 hvalid
    have hattM : (List.range destinations.length).mapM
        (collectCompleted attestationOf attOrder) =
        some ((List.range destinations.length).map attestationOf) :=
      mapM_all_some _ _ _
        (fun i hi => collectCompleted_mem _ _ i (hatt i (List.mem_range.mp hi)))
    have hrecvM : (List.range destinations.length).mapM
        (collectCompleted recvHashOf recvOrder) =
        some ((List.range destinations.length).map recvHashOf) :=
      mapM_all_some _ _ _
        (fun i hi => collectCompleted_mem _ _ i (hrecv i (List.mem_range.mp hi)))
    rcases hbp : burnPhase domainOf sourceChainId burnHashOf destinations 0 with ⟨br, bev⟩
    rw [hbp] at hl
    simp only at hl
    refine ⟨(l.zip ((List.range destinations.length).map recvHashOf)).map
      (fun p => { burn_tx_hash := p.1.burn_tx_hash, receive_tx_hash := p.2,
                  amount := p.1.amount, source_chain_id := p.1.source_chain_id,
                  dest_chain_id := p.1.dest_chain_id }), ?_, ?_, ?_⟩
    · simp only [bridge_usdc_cctp_parallel, hemp, Bool.false_eq_true, if_false, hbp, hl,
        hattM, hrecvM]
    · simp [hlen]
    · intro i hi
      rw [List.get?_map]
      have hzip : (l.zip ((List.range destinations.length).map recvHashOf)).get? i =
          some ({ burn_tx_hash := burnHashOf (0 + i),
                  amount := (destinations.getD i default).amount,
                  source_chain_id := sourceChainId,
                  dest_chain_id := (destinations.getD i default).dest_chain_id,
                  dest_safe_address := (destinations.getD i default).dest_safe_address },
                recvHashOf i) := by
        rw [List.get?_zip_eq_some]
        refine ⟨hget i hi, ?_⟩
        rw [List.get?_map, List.get?_range hi]
        rfl
      rw [hzip]
      simp

/-- C1: both parallel entry points return their result lists in input order,
regardless of the order in which the individual polls, attestations or
receives complete.  For `poll_transfers_parallel` the output is exactly
`transfers.map resultOf` for every completion order covering all submitted
indices; for `bridge_usdc_cctp_parallel` the `i`-th result carries the burn
hash, receive hash, amount and destination chain of the `i`-th destination,
for every pair of covering completion orders. -/
theorem c1_results_in_input_order :
    (∀ (transfers : List CCTPTransferQuery)
      (resultOf : CCTPTransferQuery → CCTPTransferStatus) (order : List Nat),
      (∀ i, i < transfers.length → i ∈ order) →
      poll_transfers_parallel transfers resultOf order =
        (some (transfers.map resultOf), List.range transfers.length)) ∧
    (∀ (domainOf : Nat → Option Nat) (sourceChainId : Nat)
      (destinations : List CCTPBridgeDestination)
      (burnHashOf recvHashOf : Nat → String) (attestationOf : Nat → List Nat × List Nat)
      (attOrder recvOrder : List Nat),
      (domainOf sourceChainId).isSome = true →
      (∀ d ∈ destinations, (domainOf d.dest_chain_id).isSome = true ∧ 0 < d.amount) →
      (∀ i, i < destinations.length → i ∈ attOrder) →
      (∀ i, i < destinations.length → i ∈ recvOrder) →
      ∃ results,
        (bridge_usdc_cctp_parallel domainOf sourceChainId destinations burnHashOf
          recvHashOf attestationOf attOrder recvOrder).1 = .ok results ∧
        results.length = destinations.length ∧
        ∀ i, i < destinations.length →
          results.get? i = some
            { burn_tx_hash := burnHashOf i,
              receive_tx_hash := recvHashOf i,
              amount := (destinations.getD i default).amount,
              source_chain_id := sourceChainId,
              dest_chain_id := (destinations.getD i default).dest_chain_id }) :=
  ⟨poll_parallel_input_order,
   fun domainOf sourceChainId destinations burnHashOf recvHashOf attestationOf
     attOrder recvOrder hsrc hvalid hatt hrecv =>
       bridge_parallel_input_order domainOf sourceChainId destinations burnHashOf
         recvHashOf attestationOf attOrder recvOrder hsrc hvalid hatt hrecv⟩

/-- C1 witness: two transfers polled with completion order `[1, 0]` still come
back as `[result_0, result_1]`; a two-destination bridge with both completion
orders reversed still pairs result `i` with destination `i`. -/
theorem c1_results_in_input_order_witness :
    poll_transfers_parallel [⟨3, "0xa"⟩, ⟨5, "0xb"⟩]
      (fun q => ⟨"complete", q.source_domain, 0, some [1], none, none, none,
        q.transaction_hash, none⟩) [1, 0] =
      (some [⟨"complete", 3, 0, some [1], none, none, none, "0xa", none⟩,
             ⟨"complete", 5, 0, some [1], none, none, none, "0xb", none⟩], [0, 1]) ∧
    (∃ results,
      (bridge_usdc_cctp_parallel (fun c => if c ≤ 30 then some c else none) 10
        [⟨20, "safe20", 5⟩, ⟨30, "safe30", 7⟩]
        (fun i => "burn" ++ toString i) (fun i => "recv" ++ toString i)
        (fun _ => ([1], [2])) [1, 0] [1, 0]).1 = .ok results ∧
      results.length = 2 ∧
      ∀ i, i < 2 →
        results.get? i = some
          { burn_tx_hash := "burn" ++ toString i,
            receive_tx_hash := "recv" ++ toString i,
            amount := ([(⟨20, "safe20", 5⟩ : CCTPBridgeDestination),
              ⟨30, "safe30", 7⟩].getD i default).amount,
            source_chain_id := 10,
            dest_chain_id := ([(⟨20, "safe20", 5⟩ : CCTPBridgeDestination),
              ⟨30, "safe30", 7⟩].getD i default).dest_chain_id }) :=
  ⟨c1_results_in_input_order.1 [⟨3, "0xa"⟩, ⟨5, "0xb"⟩]
    (fun q => ⟨"complete", q.source_domain, 0, some [1], none, none, none,
      q.transaction_hash, none⟩) [1, 0]
    (by intro i hi; simp only [List.length_cons, List.length_nil] at hi; interval_cases i <;>
      simp),
   c1_results_in_input_order.2 (fun c => if c ≤ 30 then some c else none) 10
    [⟨20, "safe20", 5⟩, ⟨30, "safe30", 7⟩]
    (fun i => "burn" ++ toString i) (fun i => "recv" ++ toString i)
    (fun _ => ([1], [2])) [1, 0] [1, 0] rfl
    (by intro d hd; fin_cases hd <;> exact ⟨rfl, by norm_num⟩)
    (by intro i hi; simp only [List.length_cons, List.length_nil] at hi; interval_cases i <;>
      simp)
    (by intro i hi; simp only [List.length_cons, List.length_nil] at hi; interval_cases i <;>
      simp)⟩

/-- Helper: a destination with an unknown CCTP domain or a non-positive amount
makes its burn step fail before submitting any transaction for it. -/
theorem burn_usdc_cctp_invalid (domainOf : Nat → Option Nat) (sourceChainId destChainId : Nat)
    (destSafeAddress : String) (amount : Int) (burnTxHash : String)
    (hinv : ¬ ((domainOf destChainId).isSome = true ∧ 0 < amount)) :
    ∃ e, burn_usdc_cctp domainOf sourceChainId destChainId destSafeAddress amount
        burnTxHash = .error e := by
  unfold burn_usdc_cctp
  by_cases h1 : (domainOf sourceChainId).isNone
  · exact ⟨"Source chain " ++ toString sourceChainId ++ " is not CCTP-enabled",
      by simp [h1]⟩
  · by_cases h2 : (domainOf destChainId).isNone
    · exact ⟨"Destination chain " ++ toString destChainId ++ " is not CCTP-enabled",
        by simp [h1, h2]⟩
    · have hs : (domainOf destChainId).isSome = true := by
        rcases hd : domainOf destChainId with _ | v
        · simp [hd] at h2
        · simp
      have hamt : amount ≤ 0 := by
        by_contra hpos
        exact hinv ⟨hs, by omega⟩
      exact ⟨"amount must be positive", by simp [h1, h2, hamt]⟩

/-- Helper: the burn loop over `pre ++ bad :: post`, with every destination in
`pre` valid and `bad` invalid, fails during `bad`'s burn step; by then it has
submitted exactly the approval and burn of each destination in `pre`. -/
theorem burnPhase_fails_at_invalid (domainOf : Nat → Option Nat) (sourceChainId : Nat)
    (burnHashOf : Nat → String) (hsrc : (domainOf sourceChainId).isSome = true) :
    ∀ (pre : List CCTPBridgeDestination) (bad : CCTPBridgeDestination)
      (post : List CCTPBridgeDestination) (idx : Nat),
      (∀ d ∈ pre, (domainOf d.dest_chain_id).isSome = true ∧ 0 < d.amount) →
      ¬ ((domainOf bad.dest_chain_id).isSome = true ∧ 0 < bad.amount) →
      ∃ e evs,
        burnPhase domainOf sourceChainId burnHashOf (pre ++ bad :: post) idx =
          (.error e, evs) ∧
        chainTxs evs = pre.flatMap
          (fun d => [.approve d.amount, .depositForBurn d.dest_chain_id d.amount
            d.dest_safe_address]) := by
  intro pre
  induction pre with
  | nil =>
    intro bad post idx _ hbad
    obtain ⟨e, he⟩ := burn_usdc_cctp_invalid domainOf sourceChainId bad.dest_chain_id
      bad.dest_safe_address bad.amount (burnHashOf idx) hbad
    refine ⟨e, [BridgeEvent.progressUpdate idx .burning 0], ?_, rfl⟩
    simp [burnPhase, he]
  | cons d pre ih =>
    intro bad post idx hpre hbad
    have hd := hpre d (List.mem_cons_self d pre)
    obtain ⟨e, evs, hbp, htx⟩ := ih bad post (idx + 1)
      (fun x hx => hpre x (List.mem_cons_of_mem d hx)) hbad
    refine ⟨e, BridgeEvent.progressUpdate idx .burning 0 ::
      (BridgeEvent.tx (.approve d.amount) ::
        BridgeEvent.tx (.depositForBurn d.dest_chain_id d.amount d.dest_safe_address) ::
          evs), ?_, ?_⟩
    · simp only [List.cons_append, burnPhase,
        burn_usdc_cctp_ok domainOf sourceChainId d.dest_chain_id d.dest_safe_address
          d.amount (burnHashOf idx) hsrc hd.1 hd.2, hbp]
      simp [Except.map, hbp]
    · simp [chainTxs, List.filterMap_cons] at htx ⊢
      exact htx

/-- C7 (amended): an invalid destination (unknown CCTP domain or non-positive
amount) makes the whole parallel bridge request fail during that destination's
burn step, before any on-chain action for it or for later destinations — but
destinations listed earlier have already had their approval and burn
transactions submitted: the submitted transactions are exactly the
approve/burn pairs of the valid prefix. -/
theorem c7_invalid_destination_fails_during_its_burn (domainOf : Nat → Option Nat)
    (sourceChainId : Nat) (pre post : List CCTPBridgeDestination)
    (bad : CCTPBridgeDestination)
    (burnHashOf recvHashOf : Nat → String) (attestationOf : Nat → List Nat × List Nat)
    (attOrder recvOrder : List Nat)
    (hsrc : (domainOf sourceChainId).isSome = true)
    (hpre : ∀ d ∈ pre, (domainOf d.dest_chain_id).isSome = true ∧ 0 < d.amount)
    (hbad : ¬ ((domainOf bad.dest_chain_id).isSome = true ∧ 0 < bad.amount)) :
    ∃ e,
      (bridge_usdc_cctp_parallel domainOf sourceChainId (pre ++ bad :: post) burnHashOf
        recvHashOf attestationOf attOrder recvOrder).1 = .error e ∧
      chainTxs (bridge_usdc_cctp_parallel domainOf sourceChainId (pre ++ bad :: post)
        burnHashOf recvHashOf attestationOf attOrder recvOrder).2 =
        pre.flatMap (fun d => [.approve d.amount,
          .depositForBurn d.dest_chain_id d.amount d.dest_safe_address]) := by
  have hemp : (pre ++ bad :: post).isEmpty = false := by cases pre <;> rfl
  obtain ⟨e, evs, hbp, htx⟩ := burnPhase_fails_at_invalid domainOf sourceChainId
    burnHashOf hsrc pre bad post 0 hpre hbad
  refine ⟨e, ?_, ?_⟩ <;>
    simp only [bridge_usdc_cctp_parallel, hemp, Bool.false_eq_true, if_false, hbp]
  exact htx

/-- C7 counterexample: with a valid first destination and an invalid second
one, the request fails — but only after the approval and burn transactions of
the first destination were submitted on-chain, refuting "no approval or burn
transaction is submitted for any destination, including destinations listed
earlier than the invalid one". -/
theorem c7_invalid_destination_fails_during_its_burn_counterexample :
    (bridge_usdc_cctp_parallel (fun c => if c = 1 ∨ c = 2 then some c else none) 1
      [⟨2, "s2", 5⟩, ⟨99, "s99", 5⟩] (fun i => "burn" ++ toString i)
      (fun i => "recv" ++ toString i) (fun _ => ([], [])) [] []) =
      (.error "Destination chain 99 is not CCTP-enabled",
       [.progressUpdate 0 .burning 0,
        .tx (.approve 5),
        .tx (.depositForBurn 2 5 "s2"),
        .progressUpdate 1 .burning 0]) ∧
    chainTxs [.progressUpdate 0 .burning 0, .tx (.approve 5),
      .tx (.depositForBurn 2 5 "s2"), .progressUpdate 1 .burning 0] =
      [.approve 5, .depositForBurn 2 5 "s2"] :=
  ⟨rfl, rfl⟩

/-- C7 witness: the amended statement at the same concrete input — the request
fails and the transaction trace is exactly the approve/burn pair of the valid
first destination. -/
theorem c7_invalid_destination_fails_during_its_burn_witness :
    ∃ e,
      (bridge_usdc_cctp_parallel (fun c => if c = 1 ∨ c = 2 then some c else none) 1
        ([⟨2, "s2", 5⟩] ++ ⟨99, "s99", 5⟩ :: []) (fun i => "burn" ++ toString i)
        (fun i => "recv" ++ toString i) (fun _ => ([], [])) [] []).1 = .error e ∧
      chainTxs (bridge_usdc_cctp_parallel (fun c => if c = 1 ∨ c = 2 then some c else none) 1
        ([⟨2, "s2", 5⟩] ++ ⟨99, "s99", 5⟩ :: []) (fun i => "burn" ++ toString i)
        (fun i => "recv" ++ toString i) (fun _ => ([], [])) [] []).2 =
        [⟨2, "s2", 5⟩].flatMap (fun d : CCTPBridgeDestination => [.approve d.amount,
          .depositForBurn d.dest_chain_id d.amount d.dest_safe_address]) :=
  c7_invalid_destination_fails_during_its_burn
    (fun c => if c = 1 ∨ c = 2 then some c else none) 1
    [⟨2, "s2", 5⟩] [] ⟨99, "s99", 5⟩ (fun i => "burn" ++ toString i)
    (fun i => "recv" ++ toString i) (fun _ => ([], [])) [] [] rfl
    (by intro d hd; fin_cases hd; exact ⟨rfl, by norm_num⟩)
    (by decide)

/-- C6: the progress tracker's cumulative advancement counter never decreases
under any sequence of updates.  A single `_update_phase(idx, phase, attempt)`
call (i) never decreases the counter; (ii) with an unchanged phase it leaves
both the phase array and the counter untouched, refreshing only the attempt
counter; (iii) with a changed phase it advances the counter by exactly
`max(0, new_ordinal - old_ordinal)`, which is never negative; and (iv) along
any update sequence — apparent regressions such as `attested` followed by
`pending_confirmations` included — the counter is monotone. -/
theorem c6_progress_never_decreases :
    (∀ (s : ProgressState) (idx : Nat) (phase : CCTPBridgePhase) (attempt : Nat),
      s.progressCount ≤ (_update_phase s idx phase attempt).progressCount) ∧
    (∀ (s : ProgressState) (idx : Nat) (phase : CCTPBridgePhase) (attempt : Nat),
      phase.value = (s.transfer_phases.getD idx .burning).value →
        (_update_phase s idx phase attempt).transfer_phases = s.transfer_phases ∧
        (_update_phase s idx phase attempt).progressCount = s.progressCount) ∧
    (∀ (s : ProgressState) (idx : Nat) (phase : CCTPBridgePhase) (attempt : Nat),
      phase.value ≠ (s.transfer_phases.getD idx .burning).value →
        (_update_phase s idx phase attempt).progressCount =
          s.progressCount +
            max 0 ((phase.ord : Int) - ((s.transfer_phases.getD idx .burning).ord : Int))) ∧
    (∀ (s : ProgressState) (updates : List (Nat × CCTPBridgePhase × Nat)),
      s.progressCount ≤ (applyUpdates s updates).progressCount) := by
  refine ⟨update_phase_monotone, ?_, ?_, ?_⟩
  · intro s idx phase attempt h
    simp only [_update_phase]
    split_ifs <;> simp_all
  · intro s idx phase attempt h
    have key := le_max_left (0 : Int)
      ((phase.ord : Int) - ((s.transfer_phases.getD idx .burning).ord : Int))
    simp only [_update_phase]
    split_ifs <;> simp_all
  · intro s updates
    induction updates generalizing s with
    | nil => simp [applyUpdates]
    | cons u rest ih =>
      calc s.progressCount
          ≤ (_update_phase s u.1 u.2.1 u.2.2).progressCount := update_phase_monotone ..
        _ ≤ _ := by simpa [applyUpdates] using ih (_update_phase s u.1 u.2.1 u.2.2)

/-- C6 witness: a concrete regression — `attested` (ordinal 3) followed by
`pending_confirmations` (ordinal 2) for transfer 0 — leaves the counter at 3,
not decreased, and the tracker state is monotone throughout. -/
theorem c6_progress_never_decreases_witness :
    ({ transfer_phases := [CCTPBridgePhase.burning], poll_counts := [0],
       progressCount := 0 } : ProgressState).progressCount ≤
      (applyUpdates
        { transfer_phases := [CCTPBridgePhase.burning], poll_counts := [0], progressCount := 0 }
        [(0, CCTPBridgePhase.attested, 1), (0, CCTPBridgePhase.pending_confirmations, 2)]).progressCount ∧
    (_update_phase
        { transfer_phases := [CCTPBridgePhase.attested], poll_counts := [1], progressCount := 3 }
        0 CCTPBridgePhase.pending_confirmations 2).progressCount =
      ({ transfer_phases := [CCTPBridgePhase.attested], poll_counts := [1],
         progressCount := 3 } : ProgressState).progressCount +
        max 0 ((CCTPBridgePhase.pending_confirmations.ord : Int) -
          (CCTPBridgePhase.attested.ord : Int)) :=
  ⟨c6_progress_never_decreases.2.2.2 _ _,
   c6_progress_never_decreases.2.2.1 _ 0 _ 2 (by decide)⟩

/-- C9: `is_attestation_complete` never propagates request errors.  It always
returns a boolean (never an exception); a transport error or an HTTP error
status yields `False`; and it yields `True` exactly when the response is a
non-error one whose first message has status `"complete"` and an attestation
field that is neither null nor the `"PENDING"` sentinel. -/
theorem c9_is_attestation_complete_best_effort :
    (∀ r : HttpResult, ∃ b : Bool, is_attestation_complete r = .ok b) ∧
    (is_attestation_complete .transportError = .ok false) ∧
    (∀ resp : IrisResponse, raisesForStatus resp.statusCode = true →
      is_attestation_complete (.response resp) = .ok false) ∧
    (∀ code : Nat, ∀ msgs : List IrisMessage,
      is_attestation_complete (.response { statusCode := code, messages := msgs }) = .ok true ↔
        raisesForStatus code = false ∧
          ∃ m rest, msgs = m :: rest ∧ m.status = "complete" ∧
            m.attestation ≠ none ∧ m.attestation ≠ some "PENDING") := by
  refine ⟨?_, rfl, ?_, ?_⟩
  · rintro (_ | ⟨code, msgs⟩)
    · exact ⟨false, rfl⟩
    · by_cases h : raisesForStatus code
      · exact ⟨false, by simp [is_attestation_complete, pyTry, h, bind, Except.bind]⟩
      · cases msgs with
        | nil => exact ⟨false, by simp [is_attestation_complete, pyTry, h, bind, Except.bind]⟩
        | cons m rest =>
          exact ⟨m.status == "complete" && !(m.attestation == none) &&
              !(m.attestation == some "PENDING"),
            by simp [is_attestation_complete, pyTry, h, bind, Except.bind]⟩
  · intro resp h
    cases resp with
    | mk code msgs => simp [is_attestation_complete, pyTry, h, bind, Except.bind] at h ⊢
  · intro code msgs
    by_cases h : raisesForStatus code
    · simp [is_attestation_complete, pyTry, h, bind, Except.bind]
    · cases msgs with
      | nil => simp [is_attestation_complete, pyTry, h, bind, Except.bind]
      | cons m rest =>
        have hred : is_attestation_complete
            (.response { statusCode := code, messages := m :: rest }) =
            .ok (m.status == "complete" && !(m.attestation == none) &&
              !(m.attestation == some "PENDING")) := by
          simp [is_attestation_complete, pyTry, h, bind, Except.bind]
        rw [hred]
        simp only [Except.ok.injEq, Bool.and_eq_true, beq_iff_eq, Bool.not_eq_true',
          beq_eq_false_iff_ne, ne_eq]
        constructor
        · rintro ⟨⟨hst, ha1⟩, ha2⟩
          exact ⟨by simpa using h, m, rest, rfl, hst, ha1, ha2⟩
        · rintro ⟨-, m', rest', heq, hst, ha1, ha2⟩
          obtain ⟨rfl, rfl⟩ : m' = m ∧ rest' = rest := by
            injection heq with h1 h2; exact ⟨h1.symm, h2.symm⟩
          exact ⟨⟨hst, ha1⟩, ha2⟩

/-- C9 witness: a concrete HTTP 500 response is degraded to `False`, not
re-raised. -/
theorem c9_is_attestation_complete_best_effort_witness :
    is_attestation_complete (.response { statusCode := 500 }) = .ok false :=
  c9_is_attestation_complete_best_effort.2.2.1 { statusCode := 500 } rfl

/-! Unfolding lemmas for the `fetch_attestation` loop, one per branch of the
loop body. -/

/-- Helper: with the timeout budget exhausted the loop raises `TimeoutError`. -/
theorem fetchGo_timeout_eq (svc : Nat → IrisResponse) (T p : Nat) (tx dom : String)
    (fuel : Nat) (s : FetchState) (h : T ≤ s.elapsed) :
    fetchGo svc T p tx dom (fuel + 1) s =
      some (.timeoutError (fetchTimeoutMessage T tx dom), s) := by
  simp [fetchGo, h]

/-- Helper: a 404 response notifies `waiting_for_indexing` and retries after
one poll interval. -/
theorem fetchGo_notFound_eq (svc : Nat → IrisResponse) (T p : Nat) (tx dom : String)
    (fuel : Nat) (s : FetchState) (h1 : ¬ T ≤ s.elapsed)
    (h2 : (svc s.requests).statusCode = 404) :
    fetchGo svc T p tx dom (fuel + 1) s =
      fetchGo svc T p tx dom fuel
        { attempt := s.attempt + 1, elapsed := s.elapsed + p, requests := s.requests + 1,
          trace := s.trace ++ [("waiting_for_indexing", s.attempt + 1)] } := by
  simp [fetchGo, fetchNotify, h1, h2]

/-- Helper: a non-404 HTTP error status raises immediately via
`raise_for_status`. -/
theorem fetchGo_httpError_eq (svc : Nat → IrisResponse) (T p : Nat) (tx dom : String)
    (fuel : Nat) (s : FetchState) (h1 : ¬ T ≤ s.elapsed)
    (h2 : (svc s.requests).statusCode ≠ 404)
    (h3 : raisesForStatus (svc s.requests).statusCode = true) :
    fetchGo svc T p tx dom (fuel + 1) s =
      some (.httpError (svc s.requests).statusCode,
        { s with attempt := s.attempt + 1, requests := s.requests + 1 }) := by
  simp [fetchGo, h1, h2, h3]

/-- Helper: an empty `messages` array retries without notifying. -/
theorem fetchGo_emptyMessages_eq (svc : Nat → IrisResponse) (T p : Nat) (tx dom : String)
    (fuel : Nat) (s : FetchState) (h1 : ¬ T ≤ s.elapsed)
    (h2 : (svc s.requests).statusCode ≠ 404)
    (h3 : raisesForStatus (svc s.requests).statusCode = false)
    (h4 : (svc s.requests).messages = []) :
    fetchGo svc T p tx dom (fuel + 1) s =
      fetchGo svc T p tx dom fuel
        { s with attempt := s.attempt + 1, elapsed := s.elapsed + p,
                 requests := s.requests + 1 } := by
  simp [fetchGo, h1, h2, h3, h4]

/-- Helper: a complete first message with a present attestation notifies
`complete` and returns the decoded payloads. -/
theorem fetchGo_completeMsg_eq (svc : Nat → IrisResponse) (T p : Nat) (tx dom : String)
    (fuel : Nat) (s : FetchState) (m : IrisMessage) (rest : List IrisMessage)
    (h1 : ¬ T ≤ s.elapsed)
    (h2 : (svc s.requests).statusCode ≠ 404)
    (h3 : raisesForStatus (svc s.requests).statusCode = false)
    (h4 : (svc s.requests).messages = m :: rest)
    (h5 : m.status = "complete" ∧ attPresent m.attestation = true) :
    fetchGo svc T p tx dom (fuel + 1) s =
      some ((match bytesFromHex m.message, bytesFromHex (m.attestation.getD "") with
             | some mb, some ab => FetchResult.success ⟨mb, ab, m.status⟩
             | _, _ => FetchResult.valueError),
        { s with attempt := s.attempt + 1, requests := s.requests + 1,
                 trace := s.trace ++ [("complete", s.attempt + 1)] }) := by
  simp only [fetchGo, fetchNotify, h4]
  rw [if_neg h1, if_neg h2, if_neg (by simp [h3]), if_pos h5]
  cases hbm : bytesFromHex m.message <;>
    cases hba : bytesFromHex (m.attestation.getD "") <;> rfl

/-- Helper: any other first message notifies its status and retries. -/
theorem fetchGo_otherMsg_eq (svc : Nat → IrisResponse) (T p : Nat) (tx dom : String)
    (fuel : Nat) (s : FetchState) (m : IrisMessage) (rest : List IrisMessage)
    (h1 : ¬ T ≤ s.elapsed)
    (h2 : (svc s.requests).statusCode ≠ 404)
    (h3 : raisesForStatus (svc s.requests).statusCode = false)
    (h4 : (svc s.requests).messages = m :: rest)
    (h5 : ¬ (m.status = "complete" ∧ attPresent m.attestation = true)) :
    fetchGo svc T p tx dom (fuel + 1) s =
      fetchGo svc T p tx dom fuel
        { attempt := s.attempt + 1, elapsed := s.elapsed + p, requests := s.requests + 1,
          trace := s.trace ++ [(m.status, s.attempt + 1)] } := by
  simp [fetchGo, fetchNotify, h1, h2, h3, h4, h5]

/-- Helper: against a service whose every response is retryable, the loop ends
in `TimeoutError`, raised at an iteration boundary with elapsed time in
`[T, T + p)`; the loop invariant is `elapsed < T + p` together with enough
fuel to push `elapsed` past `T`. -/
theorem fetchGo_retryable_timeout (svc : Nat → IrisResponse) (T p : Nat) (tx dom : String)
    (hr : ∀ n, retryableResponse (svc n) = true) :
    ∀ (fuel : Nat) (s : FetchState), s.elapsed < T + p → T + p ≤ s.elapsed + fuel * p →
      ∃ s', fetchGo svc T p tx dom fuel s =
          some (.timeoutError (fetchTimeoutMessage T tx dom), s') ∧
        T ≤ s'.elapsed ∧ s'.elapsed < T + p := by
  intro fuel
  induction fuel with
  | zero => intro s h1 h2; omega
  | succ fuel ih =>
    intro s h1 h2
    have hmul : (fuel + 1) * p = fuel * p + p := by ring
    by_cases ht : T ≤ s.elapsed
    · exact ⟨s, fetchGo_timeout_eq svc T p tx dom fuel s ht, ht, h1⟩
    · have hlt : s.elapsed < T := by omega
      have hr' := hr s.requests
      by_cases h404 : (svc s.requests).statusCode = 404
      · rw [fetchGo_notFound_eq svc T p tx dom fuel s ht h404]
        apply ih
        · simp only []
          linarith
        · simp only []
          linarith
      · have hparts : raisesForStatus (svc s.requests).statusCode = false ∧
            ((svc s.requests).messages = [] ∨
              ∃ m rest, (svc s.requests).messages = m :: rest ∧
                ¬(m.status = "complete" ∧ attPresent m.attestation = true)) := by
          simp only [retryableResponse, Bool.or_eq_true, beq_iff_eq, h404, false_or,
            Bool.and_eq_true, Bool.not_eq_true'] at hr'
          refine ⟨hr'.1, ?_⟩
          rcases hm : (svc s.requests).messages with _ | ⟨m, rest⟩
          · exact .inl rfl
          · refine .inr ⟨m, rest, rfl, ?_⟩
            rw [hm] at hr'
            have hflat := hr'.2
            simp only [Bool.not_eq_true', Bool.and_eq_false_iff] at hflat
            rintro ⟨hst, hat⟩
            rcases hflat with h | h
            · simp [hst] at h
            · simp [hat] at h
        rcases hparts with ⟨hnr, hmsg | ⟨m, rest, hm, hnc⟩⟩
        · rw [fetchGo_emptyMessages_eq svc T p tx dom fuel s ht h404 hnr hmsg]
          apply ih <;> simp only [] <;> linarith
        · rw [fetchGo_otherMsg_eq svc T p tx dom fuel s m rest ht h404 hnr hm hnc]
          apply ih <;> simp only [] <;> linarith

/-- C2 (amended): against a service whose every response is retryable — a 404,
or a non-error response never complete-with-attestation — `fetch_attestation`
with budget `T` and interval `p > 0` terminates (fuel `T / p + 2` suffices) by
raising `TimeoutError`; the error is never raised while elapsed time is
strictly below `T`, it is raised at an iteration boundary with elapsed time in
`[T, T + p)`, and its message carries the normalised transaction hash, the
source-domain name and the timeout value. -/
theorem c2_timeout_respected (svc : Nat → IrisResponse) (names : Nat → Option String)
    (sourceDomain : Nat) (txh : String) (T p : Nat) (hp : 0 < p)
    (hr : ∀ n, retryableResponse (svc n) = true) :
    ∃ s : FetchState,
      fetch_attestation svc names sourceDomain txh T p (T / p + 2) =
        some (.timeoutError (fetchTimeoutMessage T (normalizeTxHash txh)
          (domainNameFor names sourceDomain)), s) ∧
      T ≤ s.elapsed ∧ s.elapsed < T + p := by
  have h1 := Nat.div_add_mod T p
  have h2 : T % p < p := Nat.mod_lt T hp
  have h3 : (T / p + 2) * p = p * (T / p) + p + p := by ring
  have key : T + p ≤ 0 + (T / p + 2) * p := by
    rw [Nat.zero_add, h3]
    calc T + p = p * (T / p) + T % p + p := by rw [h1]
      _ ≤ p * (T / p) + p + p :=
          Nat.add_le_add_right (Nat.add_le_add_left h2.le _) p
  exact fetchGo_retryable_timeout svc T p (normalizeTxHash txh)
    (domainNameFor names sourceDomain) hr (T / p + 2)
    { attempt := 0, elapsed := 0, requests := 0, trace := [("waiting_for_indexing", 0)] }
    (show 0 < T + p by omega) key

/-- C2 counterexample: the claim as stated quantifies over every service that
never reports a complete status, but a service that always answers HTTP 500
never reports any status at all, and against it `fetch_attestation` terminates
by raising `HTTPError` — not `TimeoutError` — on the very first iteration. -/
theorem c2_timeout_respected_counterexample :
    (∀ n : Nat,
      reportsCompleteStatus ((fun _ => ({ statusCode := 500 } : IrisResponse)) n) = false) ∧
    fetch_attestation (fun _ => { statusCode := 500 }) (fun _ => none) 0 "0xabc" 10 5 4 =
      some (.httpError 500,
        { attempt := 1, elapsed := 0, requests := 1,
          trace := [("waiting_for_indexing", 0)] }) ∧
    FetchResult.isTimeout (.httpError 500) = false :=
  ⟨fun _ => rfl, rfl, rfl⟩

/-- C2 witness: a service that always answers 404, with `T = 10`, `p = 5`,
raises the timeout error with elapsed time 10 ∈ [10, 15). -/
theorem c2_timeout_respected_witness :
    ∃ s : FetchState,
      fetch_attestation (fun _ => { statusCode := 404 }) (fun _ => none) 3 "abc" 10 5 4 =
        some (.timeoutError (fetchTimeoutMessage 10 (normalizeTxHash "abc")
          (domainNameFor (fun _ => none) 3)), s) ∧
      10 ≤ s.elapsed ∧ s.elapsed < 10 + 5 :=
  c2_timeout_respected (fun _ => { statusCode := 404 }) (fun _ => none) 3 "abc" 10 5
    (by decide) (fun _ => rfl)

/-- Helper: after a run of `N` 404 responses a complete message is returned
successfully on request `N + 1`, no exception having been raised for the 404s. -/
theorem fetchGo_404_then_success (svc : Nat → IrisResponse) (T p : Nat) (tx dom : String) :
    ∀ (N : Nat) (s : FetchState) (m : IrisMessage) (rest : List IrisMessage)
      (mb ab : List Nat),
      (∀ k, k < N → (svc (s.requests + k)).statusCode = 404) →
      (svc (s.requests + N)).statusCode ≠ 404 →
      raisesForStatus (svc (s.requests + N)).statusCode = false →
      (svc (s.requests + N)).messages = m :: rest →
      m.status = "complete" → attPresent m.attestation = true →
      bytesFromHex m.message = some mb →
      bytesFromHex (m.attestation.getD "") = some ab →
      s.elapsed + N * p < T →
      ∃ s', fetchGo svc T p tx dom (N + 1) s = some (.success ⟨mb, ab, m.status⟩, s') ∧
        s'.requests = s.requests + N + 1 := by
  intro N
  induction N with
  | zero =>
    intro s m rest mb ab h404s hn hrs hm hst hat hmb hab htime
    have ht : ¬ T ≤ s.elapsed := by omega
    rw [Nat.add_zero] at hn hrs hm
    have heq := fetchGo_completeMsg_eq svc T p tx dom 0 s m rest ht hn hrs hm ⟨hst, hat⟩
    rw [hmb, hab] at heq
    exact ⟨_, heq, rfl⟩
  | succ N ih =>
    intro s m rest mb ab h404s hn hrs hm hst hat hmb hab htime
    have hmul : (N + 1) * p = N * p + p := by ring
    have ht : ¬ T ≤ s.elapsed := by
      intro hcon
      rw [hmul] at htime
      omega
    have h0 : (svc s.requests).statusCode = 404 := by
      have := h404s 0 (by omega)
      simpa using this
    rw [fetchGo_notFound_eq svc T p tx dom (N + 1) s ht h0]
    have hresult := ih
      { attempt := s.attempt + 1, elapsed := s.elapsed + p, requests := s.requests + 1,
        trace := s.trace ++ [("waiting_for_indexing", s.attempt + 1)] }
      m rest mb ab
      (fun k hk => by
        have := h404s (k + 1) (by omega)
        simpa [Nat.add_assoc, Nat.add_comm 1 k] using this)
      (by simpa [Nat.add_assoc, Nat.add_comm 1 N] using hn)
      (by simpa [Nat.add_assoc, Nat.add_comm 1 N] using hrs)
      (by simpa [Nat.add_assoc, Nat.add_comm 1 N] using hm)
      hst hat hmb hab
      (by simp only []; rw [hmul] at htime; omega)
    obtain ⟨s', hgo, hreq⟩ := hresult
    exact ⟨s', hgo, by simp only [] at hreq; omega⟩

/-- Helper: after a run of `N` 404 responses, a response with any HTTP error
status other than 404 raises `HTTPError` immediately on request `N + 1`, with
no further retry. -/
theorem fetchGo_404_then_error (svc : Nat → IrisResponse) (T p : Nat) (tx dom : String) :
    ∀ (N : Nat) (s : FetchState),
      (∀ k, k < N → (svc (s.requests + k)).statusCode = 404) →
      (svc (s.requests + N)).statusCode ≠ 404 →
      raisesForStatus (svc (s.requests + N)).statusCode = true →
      s.elapsed + N * p < T →
      ∃ s', fetchGo svc T p tx dom (N + 1) s =
          some (.httpError (svc (s.requests + N)).statusCode, s') ∧
        s'.requests = s.requests + N + 1 := by
  intro N
  induction N with
  | zero =>
    intro s h404s hn hrs htime
    have ht : ¬ T ≤ s.elapsed := by omega
    rw [Nat.add_zero] at hn hrs ⊢
    exact ⟨_, fetchGo_httpError_eq svc T p tx dom 0 s ht hn hrs, rfl⟩
  | succ N ih =>
    intro s h404s hn hrs htime
    have hmul : (N + 1) * p = N * p + p := by ring
    have ht : ¬ T ≤ s.elapsed := by
      intro hcon
      rw [hmul] at htime
      omega
    have h0 : (svc s.requests).statusCode = 404 := by
      have := h404s 0 (by omega)
      simpa using this
    rw [fetchGo_notFound_eq svc T p tx dom (N + 1) s ht h0]
    have hresult := ih
      { attempt := s.attempt + 1, elapsed := s.elapsed + p, requests := s.requests + 1,
        trace := s.trace ++ [("waiting_for_indexing", s.attempt + 1)] }
      (fun k hk => by
        have := h404s (k + 1) (by omega)
        simpa [Nat.add_assoc, Nat.add_comm 1 k] using this)
      (by simpa [Nat.add_assoc, Nat.add_comm 1 N] using hn)
      (by simpa [Nat.add_assoc, Nat.add_comm 1 N] using hrs)
      (by simp only []; rw [hmul] at htime; omega)
    obtain ⟨s', hgo, hreq⟩ := hresult
    refine ⟨s', by rw [hgo]; congr 2; simp [Nat.add_assoc, Nat.add_comm 1 N], ?_⟩
    simp only [] at hreq
    omega

/-- C3: `fetch_attestation` treats 404 as retryable and never raises for it —
against a service answering 404 on the first `N` requests and a complete
message on request `N + 1` it returns successfully after exactly `N + 1`
requests (hence at least `N` poll iterations), no exception raised for the
404s; conversely a response with an HTTP error status other than 404 makes it
raise `HTTPError` on that very iteration, after exactly one request past the
404 prefix, with no further retries. -/
theorem c3_404_retryable_other_errors_immediate :
    (∀ (svc : Nat → IrisResponse) (names : Nat → Option String) (sourceDomain : Nat)
      (txh : String) (T p N : Nat) (m : IrisMessage) (rest : List IrisMessage)
      (mb ab : List Nat),
      (∀ k, k < N → (svc k).statusCode = 404) →
      (svc N).statusCode ≠ 404 →
      raisesForStatus (svc N).statusCode = false →
      (svc N).messages = m :: rest →
      m.status = "complete" → attPresent m.attestation = true →
      bytesFromHex m.message = some mb →
      bytesFromHex (m.attestation.getD "") = some ab →
      N * p < T →
      ∃ s, fetch_attestation svc names sourceDomain txh T p (N + 1) =
          some (.success ⟨mb, ab, m.status⟩, s) ∧ s.requests = N + 1) ∧
    (∀ (svc : Nat → IrisResponse) (names : Nat → Option String) (sourceDomain : Nat)
      (txh : String) (T p N : Nat),
      (∀ k, k < N → (svc k).statusCode = 404) →
      (svc N).statusCode ≠ 404 →
      raisesForStatus (svc N).statusCode = true →
      N * p < T →
      ∃ s, fetch_attestation svc names sourceDomain txh T p (N + 1) =
          some (.httpError (svc N).statusCode, s) ∧ s.requests = N + 1) := by
  constructor
  · intro svc names sourceDomain txh T p N m rest mb ab h404s hn hrs hm hst hat hmb hab htime
    have hmain := fetchGo_404_then_success svc T p (normalizeTxHash txh)
      (domainNameFor names sourceDomain) N
      { attempt := 0, elapsed := 0, requests := 0, trace := [("waiting_for_indexing", 0)] }
      m rest mb ab (by simpa using h404s) (by simpa using hn) (by simpa using hrs)
      (by simpa using hm) hst hat hmb hab (by simpa using htime)
    simpa [fetch_attestation, fetchNotify] using hmain
  · intro svc names sourceDomain txh T p N h404s hn hrs htime
    have hmain := fetchGo_404_then_error svc T p (normalizeTxHash txh)
      (domainNameFor names sourceDomain) N
      { attempt := 0, elapsed := 0, requests := 0, trace := [("waiting_for_indexing", 0)] }
      (by simpa using h404s) (by simpa using hn) (by simpa using hrs)
      (by simpa using htime)
    simpa [fetch_attestation, fetchNotify] using hmain

/-- Helper: whenever the `fetch_attestation` loop returns a value, that value
has status `"complete"` and some response of the service supplied a first
message with status `"complete"` and a present attestation. -/
theorem fetchGo_success_inv (svc : Nat → IrisResponse) (T p : Nat) (tx dom : String) :
    ∀ (fuel : Nat) (s : FetchState) (a : CCTPAttestation) (s' : FetchState),
      fetchGo svc T p tx dom fuel s = some (.success a, s') →
      a.status = "complete" ∧
        ∃ k m rest, (svc k).messages = m :: rest ∧ m.status = "complete" ∧
          attPresent m.attestation = true := by
  intro fuel
  induction fuel with
  | zero => intro s a s' h; simp [fetchGo] at h
  | succ fuel ih =>
    intro s a s' h
    by_cases ht : T ≤ s.elapsed
    · rw [fetchGo_timeout_eq svc T p tx dom fuel s ht] at h
      simp at h
    · by_cases h404 : (svc s.requests).statusCode = 404
      · rw [fetchGo_notFound_eq svc T p tx dom fuel s ht h404] at h
        exact ih _ a s' h
      · cases hrs : raisesForStatus (svc s.requests).statusCode with
        | true =>
          rw [fetchGo_httpError_eq svc T p tx dom fuel s ht h404 hrs] at h
          simp at h
        | false =>
          rcases hm : (svc s.requests).messages with _ | ⟨m, rest⟩
          · rw [fetchGo_emptyMessages_eq svc T p tx dom fuel s ht h404 hrs hm] at h
            exact ih _ a s' h
          · by_cases hc : m.status = "complete" ∧ attPresent m.attestation = true
            · rw [fetchGo_completeMsg_eq svc T p tx dom fuel s m rest ht h404 hrs hm hc] at h
              refine ⟨?_, s.requests, m, rest, hm, hc.1, hc.2⟩
              rcases hbm : bytesFromHex m.message with _ | mb <;>
                rcases hba : bytesFromHex (m.attestation.getD "") with _ | ab <;>
                rw [hbm, hba] at h <;> simp at h
              rw [← h.1]
              exact hc.1
            · rw [fetchGo_otherMsg_eq svc T p tx dom fuel s m rest ht h404 hrs hm hc] at h
              exact ih _ a s' h

/-! Unfolding lemmas for the `poll_transfer_status` loop. -/

/-- Helper: with the timeout budget exhausted the poll loop raises. -/
theorem pollGo_timeout_eq (svc : Nat → IrisResponse) (T p d : Nat) (tx : String)
    (fuel : Nat) (s : PollState) (h : T ≤ s.elapsed) :
    pollGo svc T p d tx (fuel + 1) s =
      some (.error (.timeoutError (pollTimeoutMessage T tx d)), s) := by
  simp [pollGo, h]

/-- Helper: an exception from `fetch_transfer_status` propagates. -/
theorem pollGo_fetchError_eq (svc : Nat → IrisResponse) (T p d : Nat) (tx : String)
    (fuel : Nat) (s : PollState) (e : MonitorError) (h1 : ¬ T ≤ s.elapsed)
    (h2 : fetch_transfer_status (svc s.requests) d tx = .error e) :
    pollGo svc T p d tx (fuel + 1) s =
      some (.error e, { s with attempt := s.attempt + 1, requests := s.requests + 1 }) := by
  simp [pollGo, h1, h2]

/-- Helper: a not-yet-indexed transfer (404 or empty messages) retries. -/
theorem pollGo_notIndexed_eq (svc : Nat → IrisResponse) (T p d : Nat) (tx : String)
    (fuel : Nat) (s : PollState) (h1 : ¬ T ≤ s.elapsed)
    (h2 : fetch_transfer_status (svc s.requests) d tx = .ok none) :
    pollGo svc T p d tx (fuel + 1) s =
      pollGo svc T p d tx fuel
        { s with attempt := s.attempt + 1, elapsed := s.elapsed + p,
                 requests := s.requests + 1 } := by
  simp [pollGo, h1, h2]

/-- Helper: a complete status is returned as-is. -/
theorem pollGo_complete_eq (svc : Nat → IrisResponse) (T p d : Nat) (tx : String)
    (fuel : Nat) (s : PollState) (st : CCTPTransferStatus) (h1 : ¬ T ≤ s.elapsed)
    (h2 : fetch_transfer_status (svc s.requests) d tx = .ok (some st))
    (h3 : st.is_complete = true) :
    pollGo svc T p d tx (fuel + 1) s =
      some (.ok st, { s with attempt := s.attempt + 1, requests := s.requests + 1 }) := by
  simp [pollGo, h1, h2, h3]

/-- Helper: an incomplete status retries. -/
theorem pollGo_incomplete_eq (svc : Nat → IrisResponse) (T p d : Nat) (tx : String)
    (fuel : Nat) (s : PollState) (st : CCTPTransferStatus) (h1 : ¬ T ≤ s.elapsed)
    (h2 : fetch_transfer_status (svc s.requests) d tx = .ok (some st))
    (h3 : st.is_complete = false) :
    pollGo svc T p d tx (fuel + 1) s =
      pollGo svc T p d tx fuel
        { s with attempt := s.attempt + 1, elapsed := s.elapsed + p,
                 requests := s.requests + 1 } := by
  simp [pollGo, h1, h2, h3]

/-- Helper: every status `poll_transfer_status` returns satisfies
`is_complete`. -/
theorem pollGo_complete_inv (svc : Nat → IrisResponse) (T p d : Nat) (tx : String) :
    ∀ (fuel : Nat) (s : PollState) (st : CCTPTransferStatus) (s' : PollState),
      pollGo svc T p d tx fuel s = some (.ok st, s') →
      st.is_complete = true := by
  intro fuel
  induction fuel with
  | zero => intro s st s' h; simp [pollGo] at h
  | succ fuel ih =>
    intro s st s' h
    by_cases ht : T ≤ s.elapsed
    · rw [pollGo_timeout_eq svc T p d tx fuel s ht] at h
      simp at h
    · rcases hf : fetch_transfer_status (svc s.requests) d tx with e | _ | st0
      · rw [pollGo_fetchError_eq svc T p d tx fuel s e ht hf] at h
        simp at h
      · rw [pollGo_notIndexed_eq svc T p d tx fuel s ht hf] at h
        exact ih _ st s' h
      · cases hc : st0.is_complete with
        | true =>
          rw [pollGo_complete_eq svc T p d tx fuel s st0 ht hf hc] at h
          simp at h
          rw [← h.1]
          exact hc
        | false =>
          rw [pollGo_incomplete_eq svc T p d tx fuel s st0 ht hf hc] at h
          exact ih _ st s' h

/-- C5: completeness is the conjunction of the status string and attestation
presence.  (i) `CCTPTransferStatus.is_complete` is false whenever the
attestation is `None`, even with status `"complete"`; (ii) `fetch_attestation`
returns only when some service response carried a first message with status
`"complete"` and a present (non-null, non-`"PENDING"`) attestation, and the
returned status is `"complete"`; (iii) every status `poll_transfer_status`
returns satisfies `is_complete`. -/
theorem c5_complete_is_conjunction :
    (∀ s : CCTPTransferStatus, s.attestation = none → s.is_complete = false) ∧
    (∀ (svc : Nat → IrisResponse) (names : Nat → Option String) (sourceDomain : Nat)
      (txh : String) (T p fuel : Nat) (a : CCTPAttestation) (s : FetchState),
      fetch_attestation svc names sourceDomain txh T p fuel = some (.success a, s) →
      a.status = "complete" ∧
        ∃ k m rest, (svc k).messages = m :: rest ∧ m.status = "complete" ∧
          attPresent m.attestation = true) ∧
    (∀ (svc : Nat → IrisResponse) (sourceDomain : Nat) (txh : String)
      (T p fuel : Nat) (st : CCTPTransferStatus) (s : PollState),
      poll_transfer_status svc sourceDomain txh T p fuel = some (.ok st, s) →
      st.is_complete = true) := by
  refine ⟨?_, ?_, ?_⟩
  · intro s h
    simp [CCTPTransferStatus.is_complete, h]
  · intro svc names sourceDomain txh T p fuel a s h
    exact fetchGo_success_inv svc T p (normalizeTxHash txh)
      (domainNameFor names sourceDomain) fuel _ a s h
  · intro svc sourceDomain txh T p fuel st s h
    exact pollGo_complete_inv svc T p sourceDomain (normalizeTxHash txh) fuel _ st s h

/-- C5 witness: a status with `status = "complete"` but no attestation is not
complete; a concrete successful fetch yields status `"complete"` from a
complete-with-attestation response; a concrete poll returns a status
satisfying `is_complete`. -/
theorem c5_complete_is_conjunction_witness :
    (CCTPTransferStatus.is_complete
      ⟨"complete", 3, 0, none, none, none, none, "0xabc", none⟩ = false) ∧
    ((CCTPAttestation.mk [190, 239] [222, 173] "complete").status = "complete" ∧
      ∃ k m rest,
        ((fun n => if n = 0 then ({ statusCode := 404 } : IrisResponse)
          else { statusCode := 200,
                 messages := [{ status := "complete", attestation := some "0xdead",
                                message := "0xbeef" }] }) k).messages = m :: rest ∧
        m.status = "complete" ∧ attPresent m.attestation = true) ∧
    CCTPTransferStatus.is_complete
      ⟨"complete", 3, 0, some [222, 173], some [190, 239], none, none, "0xabc", none⟩ =
      true :=
  ⟨c5_complete_is_conjunction.1 ⟨"complete", 3, 0, none, none, none, none, "0xabc", none⟩ rfl,
   c5_complete_is_conjunction.2.1
     (fun n => if n = 0 then { statusCode := 404 }
       else { statusCode := 200,
              messages := [{ status := "complete", attestation := some "0xdead",
                             message := "0xbeef" }] })
     (fun d => if d = 3 then some "arbitrum" else none) 3 "0xabc" 300 5 10
     (CCTPAttestation.mk [190, 239] [222, 173] "complete")
     { attempt := 2, elapsed := 5, requests := 2,
       trace := [("waiting_for_indexing", 0), ("waiting_for_indexing", 1), ("complete", 2)] }
     (by rfl),
   c5_complete_is_conjunction.2.2
     (fun _ => { statusCode := 200,
                 messages := [{ status := "complete", attestation := some "0xdead",
                                message := "0xbeef" }] })
     3 "0xabc" 300 5 5
     ⟨"complete", 3, 0, some [222, 173], some [190, 239], none, none, "0xabc", none⟩
     { attempt := 1, elapsed := 0, requests := 1 }
     (by rfl)⟩

/-- C3 witness: with two 404s before a complete message the call succeeds after
exactly 3 requests; with 500 on the very first request it raises immediately
after exactly 1 request. -/
theorem c3_404_retryable_other_errors_immediate_witness :
    (∃ s, fetch_attestation
        (fun n => if n < 2 then { statusCode := 404 }
          else { statusCode := 200,
                 messages := [{ status := "complete", attestation := some "0xdead",
                                message := "0xbeef" }] })
        (fun _ => none) 3 "0xabc" 300 5 3 =
      some (.success ⟨[190, 239], [222, 173], "complete"⟩, s) ∧ s.requests = 3) ∧
    (∃ s, fetch_attestation (fun _ => { statusCode := 500 }) (fun _ => none) 3 "0xabc"
        300 5 1 = some (.httpError 500, s) ∧ s.requests = 1) :=
  ⟨c3_404_retryable_other_errors_immediate.1 _ (fun _ => none) 3 "0xabc" 300 5 2
      { status := "complete", attestation := some "0xdead", message := "0xbeef" } []
      [190, 239] [222, 173]
      (by intro k hk; interval_cases k <;> rfl) (by decide) rfl rfl rfl rfl rfl rfl
      (by decide),
   c3_404_retryable_other_errors_immediate.2 _ (fun _ => none) 3 "0xabc" 300 5 0
      (by intro k hk; omega) (by decide) rfl (by decide)⟩

/-- Helper: shape of the callback trace of the `fetch_attestation` loop.
Starting from a state with `attempt = requests`, the loop keeps that equality,
never loses a request, appends to the trace only, and the attempts recorded in
the trace extend by exactly `k + 1` for every request index `k` in the run
whose response notifies (a 404 or a non-error response with messages). -/
theorem fetchGo_trace_shape (svc : Nat → IrisResponse) (T p : Nat) (tx dom : String) :
    ∀ (fuel : Nat) (s : FetchState) (r : FetchResult) (s' : FetchState),
      s.attempt = s.requests →
      fetchGo svc T p tx dom fuel s = some (r, s') →
      s'.attempt = s'.requests ∧ s.requests ≤ s'.requests ∧
      s'.trace.map Prod.snd = s.trace.map Prod.snd ++
        ((List.range' s.requests (s'.requests - s.requests)).filter
          (fun k => notifyingResponse (svc k))).map (· + 1) ∧
      ∃ t, s'.trace = s.trace ++ t := by
  intro fuel
  induction fuel with
  | zero => intro s r s' _ h; simp [fetchGo] at h
  | succ fuel ih =>
    intro s r s' ha h
    by_cases ht : T ≤ s.elapsed
    · rw [fetchGo_timeout_eq svc T p tx dom fuel s ht] at h
      simp at h
      obtain ⟨-, rfl⟩ := h
      exact ⟨ha, le_refl _, by simp, [], by simp⟩
    · by_cases h404 : (svc s.requests).statusCode = 404
      · rw [fetchGo_notFound_eq svc T p tx dom fuel s ht h404] at h
        obtain ⟨ha', hle', htr', t', hpre'⟩ := ih _ r s' (by simp [ha]) h
        simp only [] at ha' hle' htr' hpre'
        have hnot : notifyingResponse (svc s.requests) = true := by
          simp [notifyingResponse, h404]
        refine ⟨ha', by omega, ?_, ("waiting_for_indexing", s.attempt + 1) :: t', ?_⟩
        · rw [htr']
          have hn : s'.requests - s.requests = (s'.requests - (s.requests + 1)) + 1 := by
            omega
          rw [hn, List.range'_succ s.requests (s'.requests - (s.requests + 1)) 1]
          simp [List.filter_cons, hnot, ha]
        · rw [hpre']
          simp
      · cases hrs : raisesForStatus (svc s.requests).statusCode with
        | true =>
          rw [fetchGo_httpError_eq svc T p tx dom fuel s ht h404 hrs] at h
          simp at h
          obtain ⟨-, rfl⟩ := h
          have hnot : notifyingResponse (svc s.requests) = false := by
            simp [notifyingResponse, h404, hrs]
          refine ⟨by simp [ha], by simp, ?_, [], by simp⟩
          simp [List.filter_cons, hnot]
        | false =>
          rcases hm : (svc s.requests).messages with _ | ⟨m, rest⟩
          · rw [fetchGo_emptyMessages_eq svc T p tx dom fuel s ht h404 hrs hm] at h
            obtain ⟨ha', hle', htr', t', hpre'⟩ := ih _ r s' (by simp [ha]) h
            simp only [] at ha' hle' htr' hpre'
            have hnot : notifyingResponse (svc s.requests) = false := by
              simp [notifyingResponse, h404, hrs, hm]
            refine ⟨ha', by omega, ?_, t', by rw [hpre']⟩
            rw [htr']
            have hn : s'.requests - s.requests = (s'.requests - (s.requests + 1)) + 1 := by
              omega
            rw [hn, List.range'_succ s.requests (s'.requests - (s.requests + 1)) 1]
            simp [List.filter_cons, hnot]
          · have hnot : notifyingResponse (svc s.requests) = true := by
              simp [notifyingResponse, h404, hrs, hm]
            by_cases hc : m.status = "complete" ∧ attPresent m.attestation = true
            · rw [fetchGo_completeMsg_eq svc T p tx dom fuel s m rest ht h404 hrs hm hc] at h
              simp at h
              obtain ⟨-, rfl⟩ := h
              refine ⟨by simp [ha], by simp, ?_, [("complete", s.attempt + 1)], by simp⟩
              simp [List.filter_cons, hnot, ha]
            · rw [fetchGo_otherMsg_eq svc T p tx dom fuel s m rest ht h404 hrs hm hc] at h
              obtain ⟨ha', hle', htr', t', hpre'⟩ := ih _ r s' (by simp [ha]) h
              simp only [] at ha' hle' htr' hpre'
              refine ⟨ha', by omega, ?_, (m.status, s.attempt + 1) :: t', ?_⟩
              · rw [htr']
                have hn : s'.requests - s.requests =
                    (s'.requests - (s.requests + 1)) + 1 := by
                  omega
                rw [hn, List.range'_succ s.requests (s'.requests - (s.requests + 1)) 1]
                simp [List.filter_cons, hnot, ha]
              · rw [hpre']
                simp

end CCTP

namespace CCTP
/-- C8 (amended): during every terminating call to `fetch_attestation`, the
callback trace starts with one `("waiting_for_indexing", 0)` invocation made
before any network call (attempt 0, not 1-based), and thereafter the callback
is invoked exactly on those poll iterations whose response is a 404 or carries
at least one message — with `attempt` equal to the 1-based index of that
iteration; the attempts across invocations strictly increase. -/
theorem c8_callback_attempt_counter (svc : Nat → IrisResponse) (names : Nat → Option String)
    (sourceDomain : Nat) (txh : String) (T p fuel : Nat) (r : FetchResult)
    (s : FetchState)
    (h : fetch_attestation svc names sourceDomain txh T p fuel = some (r, s)) :
    s.trace.head? = some ("waiting_for_indexing", 0) ∧
    s.trace.map Prod.snd =
      0 :: ((List.range s.requests).filter (fun k => notifyingResponse (svc k))).map
        (· + 1) ∧
    (s.trace.map Prod.snd).Pairwise (· < ·) := by
  obtain ⟨ha', hle', htr', t, hpre⟩ := fetchGo_trace_shape svc T p (normalizeTxHash txh)
    (domainNameFor names sourceDomain) fuel
    { attempt := 0, elapsed := 0, requests := 0, trace := [("waiting_for_indexing", 0)] }
    r s rfl h
  simp only [] at htr' hpre
  have htr : s.trace.map Prod.snd =
      0 :: ((List.range s.requests).filter (fun k => notifyingResponse (svc k))).map
        (· + 1) := by
    rw [htr', List.range_eq_range']
    simp
  refine ⟨?_, htr, ?_⟩
  · rw [hpre]
    rfl
  · rw [htr]
    refine List.Pairwise.cons ?_ ?_
    · intro x hx
      simp only [List.mem_map] at hx
      obtain ⟨k, -, rfl⟩ := hx
      omega
    · rw [List.pairwise_map]
      exact (List.Pairwise.filter _ (List.pairwise_lt_range _)).imp
        (fun hab => by omega)
/-- C8 counterexample: against a service answering 200 with an empty
`messages` array, the single poll iteration (one HTTP request) invokes no
callback at all, and the only invocation ever made is the initial one with
attempt 0 — refuting both "invoked on every poll iteration" and "the attempt
argument is a 1-based counter". -/
theorem c8_callback_attempt_counter_counterexample :
    fetch_attestation (fun _ => { statusCode := 200, messages := [] }) (fun _ => none)
      0 "0xabc" 5 5 3 =
      some (.timeoutError (fetchTimeoutMessage 5 "0xabc" "domain-0"),
        { attempt := 1, elapsed := 5, requests := 1,
          trace := [("waiting_for_indexing", 0)] }) ∧
    (([("waiting_for_indexing", 0)] : List (String × Nat)).map Prod.snd).count 1 = 0 ∧
    ∀ q ∈ ([("waiting_for_indexing", 0)] : List (String × Nat)), ¬ 1 ≤ q.2 :=
  ⟨rfl, rfl, by decide⟩



/-- C8 witness: the concrete 404-then-complete run invokes the callback with
attempts `[0, 1, 2]`: the initial attempt-0 call, then 1-based attempts for
the 404 iteration and the complete iteration, strictly increasing. -/
theorem c8_callback_attempt_counter_witness :
    ([("waiting_for_indexing", 0), ("waiting_for_indexing", 1), ("complete", 2)]
        : List (String × Nat)).head? = some ("waiting_for_indexing", 0) ∧
    ([("waiting_for_indexing", 0), ("waiting_for_indexing", 1), ("complete", 2)]
        : List (String × Nat)).map Prod.snd =
      0 :: ((List.range 2).filter (fun k => notifyingResponse
        ((fun n => if n = 0 then ({ statusCode := 404 } : IrisResponse)
          else { statusCode := 200,
                 messages := [{ status := "complete", attestation := some "0xdead",
                                message := "0xbeef" }] }) k))).map (· + 1) ∧
    (([("waiting_for_indexing", 0), ("waiting_for_indexing", 1), ("complete", 2)]
        : List (String × Nat)).map Prod.snd).Pairwise (· < ·) :=
  c8_callback_attempt_counter
    (fun n => if n = 0 then { statusCode := 404 }
      else { statusCode := 200,
             messages := [{ status := "complete", attestation := some "0xdead",
                            message := "0xbeef" }] })
    (fun d => if d = 3 then some "arbitrum" else none) 3 "0xabc" 300 5 10
    (.success { message := [190, 239], attestation := [222, 173], status := "complete" })
    { attempt := 2, elapsed := 5, requests := 2,
      trace := [("waiting_for_indexing", 0), ("waiting_for_indexing", 1), ("complete", 2)] }
    (by rfl)

end CCTP
